import Mathlib

/-!
Shallow embedding of `lmdeploy/lite/apis/kv_qparams.py`, the calibration
pipeline that derives per-layer, per-shard quantization parameters for a
transformer's key/value attention cache.

Modelling conventions:
* real-number scalars (Python floats) are modelled as `ℚ`;
* a cache tensor `[batch, heads, tokens, dims]` is modelled as
  `List (List (List ℚ))`: axis 0 is the batch axis, axis 1 the attention-head
  axis, and the trailing (token, dim) axes of one head are flattened into a
  single `List ℚ`;
* Python `assert` failures and runtime faults (`KeyError`, `NameError`) are
  modelled with `Except` / an explicit error value;
* the `Observer` class is imported by the source from
  `lmdeploy.lite.quantization`, which is not part of this source snapshot;
  its behavioural model is marked `Modelled from the spec:` below.
-/

/-- The flattened (token, dim) data of one attention head. -/
abbrev Cell : Type := List ℚ

/-- A key or value cache tensor: axis 0 = batch, axis 1 = attention heads. -/
abbrev Cache : Type := List (List Cell)

/-- Python `max(xs)` over a nonempty list.  CPython raises on `[]`; all call
sites in the program pass nonempty lists, so the `[]` case is junk. -/
def listMax : List ℚ → ℚ
  | [] => 0
  | x :: xs => xs.foldl max x

/-- Python `min(xs)` over a nonempty list (same caveat as `listMax`). -/
def listMin : List ℚ → ℚ
  | [] => 0
  | x :: xs => xs.foldl min x

/-- `absmax` from the source: `tensor.abs().max().item()`. -/
def absmax (c : Cache) : ℚ := listMax ((c.flatten.flatten).map (fun x => |x|))

/-- `minmax` from the source: `(tensor.min().item(), tensor.max().item())`. -/
def minmax (c : Cache) : ℚ × ℚ := (listMin c.flatten.flatten, listMax c.flatten.flatten)

/-- Python slice `r[lo:hi]` on a list. -/
def sliceRow (r : List Cell) (lo hi : ℕ) : List Cell := (r.drop lo).take (hi - lo)

/-- Python `t[:, lo:hi]`: slice axis 1 (the attention-head axis), keeping the
batch axis and everything inside each head intact. -/
def sliceCache (c : Cache) (lo hi : ℕ) : Cache := c.map (fun r => sliceRow r lo hi)

/-- Python `t.size(1)`: the attention-head axis length (the tensors the model
produces are rectangular, so the first batch row is representative). -/
def size1 (c : Cache) : ℕ :=
  match c with
  | [] => 0
  | r :: _ => r.length

/-- The index set of heads owned by shard `S` when each shard gets `per`
heads: the half-open range `[S * per, (S+1) * per)` of source line 91. -/
def shardRange (per S : ℕ) : Finset ℕ := Finset.Ico (S * per) ((S + 1) * per)

/-- Concatenation, along the head axis, of all `numTp` shard slices of a
cache, in shard order. -/
def concatShards (c : Cache) (per numTp : ℕ) : Cache :=
  c.map (fun r => (List.range numTp).flatMap (fun S => sliceRow r (S * per) ((S + 1) * per)))

/- ----------------------------------------------------------------
Finalization formulas (`main`, lines 169-193), taking an observer's
accumulated buffer as input.  `main` asserts `bits == 8` before this code
can run, so `bits ≥ 1` always holds at the call sites.
---------------------------------------------------------------- -/

/-- Symmetric finalization (source lines 169-175):
`k_scale = max(k_obs.buffer) / (2**(bits-1) - 1)`, same for `v_scale`,
serialized in the order `[k_scale, v_scale]`. -/
def finalizeSym (bits : ℕ) (kbuf vbuf : List ℚ) : List ℚ :=
  [listMax kbuf / ((2 : ℚ) ^ (bits - 1) - 1),
   listMax vbuf / ((2 : ℚ) ^ (bits - 1) - 1)]

/-- Asymmetric finalization (source lines 179-192): minima/maxima are taken
over the per-batch `(min, max)` pairs of the buffer, and the result is
serialized in the order `[k_scale, k_min, v_scale, v_min]` (the zero point
written is the minimum). -/
def finalizeAsym (bits : ℕ) (kbuf vbuf : List (ℚ × ℚ)) : List ℚ :=
  [(listMax (kbuf.map Prod.snd) - listMin (kbuf.map Prod.fst)) / ((2 : ℚ) ^ bits - 1),
   listMin (kbuf.map Prod.fst),
   (listMax (vbuf.map Prod.snd) - listMin (vbuf.map Prod.fst)) / ((2 : ℚ) ^ bits - 1),
   listMin (vbuf.map Prod.fst)]

/- ----------------------------------------------------------------
Helper lemmas: `listMax` / `listMin` compute the maximum / minimum of a
nonempty list.
---------------------------------------------------------------- -/

lemma le_foldl_max (xs : List ℚ) : ∀ a : ℚ, a ≤ xs.foldl max a := by
  induction xs with
  | nil => intro a; exact le_refl a
  | cons y ys ih =>
      intro a
      calc a ≤ max a y := le_max_left a y
        _ ≤ ys.foldl max (max a y) := ih (max a y)

lemma foldl_max_ub (xs : List ℚ) : ∀ (a x : ℚ), x ∈ xs → x ≤ xs.foldl max a := by
  induction xs with
  | nil => intro a x hx; cases hx
  | cons y ys ih =>
      intro a x hx
      rcases List.mem_cons.mp hx with h | h
      · subst h
        calc x ≤ max a x := le_max_right a x
          _ ≤ ys.foldl max (max a x) := le_foldl_max ys (max a x)
      · exact ih (max a y) x h

lemma foldl_max_cases (xs : List ℚ) : ∀ a : ℚ, xs.foldl max a = a ∨ xs.foldl max a ∈ xs := by
  induction xs with
  | nil => intro a; exact Or.inl rfl
  | cons y ys ih =>
      intro a
      rcases ih (max a y) with h | h
      · rcases max_choice a y with h2 | h2
        · exact Or.inl (by rw [List.foldl_cons, h, h2])
        · exact Or.inr (by rw [List.foldl_cons, h, h2]; exact List.mem_cons_self y ys)
      · exact Or.inr (List.mem_cons_of_mem y h)

lemma listMax_mem (l : List ℚ) (h : l ≠ []) : listMax l ∈ l := by
  cases l with
  | nil => exact absurd rfl h
  | cons x xs =>
      rcases foldl_max_cases xs x with h2 | h2
      · rw [listMax, h2]; exact List.mem_cons_self x xs
      · rw [listMax]; exact List.mem_cons_of_mem x h2

lemma listMax_ub (l : List ℚ) (x : ℚ) (hx : x ∈ l) : x ≤ listMax l := by
  cases l with
  | nil => cases hx
  | cons y ys =>
      rcases List.mem_cons.mp hx with h | h
      · subst h; exact le_foldl_max ys x
      · exact foldl_max_ub ys y x h

lemma foldl_min_le (xs : List ℚ) : ∀ a : ℚ, xs.foldl min a ≤ a := by
  induction xs with
  | nil => intro a; exact le_refl a
  | cons y ys ih =>
      intro a
      calc ys.foldl min (min a y) ≤ min a y := ih (min a y)
        _ ≤ a := min_le_left a y

lemma foldl_min_lb (xs : List ℚ) : ∀ (a x : ℚ), x ∈ xs → xs.foldl min a ≤ x := by
  induction xs with
  | nil => intro a x hx; cases hx
  | cons y ys ih =>
      intro a x hx
      rcases List.mem_cons.mp hx with h | h
      · subst h
        calc ys.foldl min (min a x) ≤ min a x := foldl_min_le ys (min a x)
          _ ≤ x := min_le_right a x
      · exact ih (min a y) x h

lemma foldl_min_cases (xs : List ℚ) : ∀ a : ℚ, xs.foldl min a = a ∨ xs.foldl min a ∈ xs := by
  induction xs with
  | nil => intro a; exact Or.inl rfl
  | cons y ys ih =>
      intro a
      rcases ih (min a y) with h | h
      · rcases min_choice a y with h2 | h2
        · exact Or.inl (by rw [List.foldl_cons, h, h2])
        · exact Or.inr (by rw [List.foldl_cons, h, h2]; exact List.mem_cons_self y ys)
      · exact Or.inr (List.mem_cons_of_mem y h)

lemma listMin_mem (l : List ℚ) (h : l ≠ []) : listMin l ∈ l := by
  cases l with
  | nil => exact absurd rfl h
  | cons x xs =>
      rcases foldl_min_cases xs x with h2 | h2
      · rw [listMin, h2]; exact List.mem_cons_self x xs
      · rw [listMin]; exact List.mem_cons_of_mem x h2

lemma listMin_lb (l : List ℚ) (x : ℚ) (hx : x ∈ l) : listMin l ≤ x := by
  cases l with
  | nil => cases hx
  | cons y ys =>
      rcases List.mem_cons.mp hx with h | h
      · subst h; exact foldl_min_le ys x
      · exact foldl_min_lb ys y x h

/- ----------------------------------------------------------------
Claims C1, C2, C4 (finalization formulas).
---------------------------------------------------------------- -/

/-- C1: in symmetric mode the finalized key scale is the maximum of the key
observer's buffer divided by `2^(bits-1) - 1`, and the value scale is the same
formula over the value observer's buffer. -/
theorem C1_symmetric_scale (bits : ℕ) (kbuf vbuf : List ℚ)
    (hb : 0 < bits) (hk : kbuf ≠ []) (hv : vbuf ≠ []) :
    ∃ mk mv,
      mk ∈ kbuf ∧ (∀ x ∈ kbuf, x ≤ mk) ∧
      mv ∈ vbuf ∧ (∀ x ∈ vbuf, x ≤ mv) ∧
      finalizeSym bits kbuf vbuf =
        [mk / ((2 : ℚ) ^ (bits - 1) - 1), mv / ((2 : ℚ) ^ (bits - 1) - 1)] := by
  refine ⟨listMax kbuf, listMax vbuf, listMax_mem kbuf hk, ?_, listMax_mem vbuf hv, ?_, rfl⟩
  · exact fun x hx => listMax_ub kbuf x hx
  · exact fun x hx => listMax_ub vbuf x hx

/-- Witness for C1 at the spec's concrete instance: buffer `[3, 5, 2]` and
`bits = 8` give scale `5 / 127`. -/
theorem C1_symmetric_scale_witness :
    ((0 < 8) ∧ ([(3 : ℚ), 5, 2] : List ℚ) ≠ [] ∧
      (∃ mk mv,
        mk ∈ ([(3 : ℚ), 5, 2] : List ℚ) ∧ (∀ x ∈ ([(3 : ℚ), 5, 2] : List ℚ), x ≤ mk) ∧
        mv ∈ ([(3 : ℚ), 5, 2] : List ℚ) ∧ (∀ x ∈ ([(3 : ℚ), 5, 2] : List ℚ), x ≤ mv) ∧
        finalizeSym 8 [3, 5, 2] [3, 5, 2] =
          [mk / ((2 : ℚ) ^ (8 - 1) - 1), mv / ((2 : ℚ) ^ (8 - 1) - 1)])) ∧
    finalizeSym 8 [3, 5, 2] [3, 5, 2] = [5 / 127, 5 / 127] :=
  ⟨⟨by decide, by decide,
    C1_symmetric_scale 8 [3, 5, 2] [3, 5, 2] (by decide) (by decide) (by decide)⟩,
   by simp [finalizeSym, listMax, List.foldl]; norm_num [max_def]⟩

/-- C2: in asymmetric mode finalization takes the minimum of all recorded
minima and the maximum of all recorded maxima, sets
`scale = (max - min) / (2^bits - 1)` and `zero_point = min`, for keys and
values alike, serialized as `[k_scale, k_zp, v_scale, v_zp]`. -/
theorem C2_asymmetric_finalization (bits : ℕ) (kbuf vbuf : List (ℚ × ℚ))
    (hb : 0 < bits) (hk : kbuf ≠ []) (hv : vbuf ≠ []) :
    ∃ kmin kmax vmin vmax,
      kmin ∈ kbuf.map Prod.fst ∧ (∀ x ∈ kbuf.map Prod.fst, kmin ≤ x) ∧
      kmax ∈ kbuf.map Prod.snd ∧ (∀ x ∈ kbuf.map Prod.snd, x ≤ kmax) ∧
      vmin ∈ vbuf.map Prod.fst ∧ (∀ x ∈ vbuf.map Prod.fst, vmin ≤ x) ∧
      vmax ∈ vbuf.map Prod.snd ∧ (∀ x ∈ vbuf.map Prod.snd, x ≤ vmax) ∧
      finalizeAsym bits kbuf vbuf =
        [(kmax - kmin) / ((2 : ℚ) ^ bits - 1), kmin,
         (vmax - vmin) / ((2 : ℚ) ^ bits - 1), vmin] := by
  have hk1 : kbuf.map Prod.fst ≠ [] := by
    intro h; exact hk (List.map_eq_nil.mp h)
  have hk2 : kbuf.map Prod.snd ≠ [] := by
    intro h; exact hk (List.map_eq_nil.mp h)
  have hv1 : vbuf.map Prod.fst ≠ [] := by
    intro h; exact hv (List.map_eq_nil.mp h)
  have hv2 : vbuf.map Prod.snd ≠ [] := by
    intro h; exact hv (List.map_eq_nil.mp h)
  refine ⟨listMin (kbuf.map Prod.fst), listMax (kbuf.map Prod.snd),
          listMin (vbuf.map Prod.fst), listMax (vbuf.map Prod.snd),
          listMin_mem _ hk1, ?_, listMax_mem _ hk2, ?_,
          listMin_mem _ hv1, ?_, listMax_mem _ hv2, ?_, rfl⟩
  · exact fun x hx => listMin_lb _ x hx
  · exact fun x hx => listMax_ub _ x hx
  · exact fun x hx => listMin_lb _ x hx
  · exact fun x hx => listMax_ub _ x hx

/-- Witness for C2 at the spec's concrete instance: buffer
`[(-2, 4), (-5, 3)]` and `bits = 8` give `k_min = -5`, `k_max = 4`,
`scale = 9/255`, `zero_point = -5`. -/
theorem C2_asymmetric_finalization_witness :
    ((0 < 8) ∧ ([((-2 : ℚ), (4 : ℚ)), ((-5 : ℚ), (3 : ℚ))] : List (ℚ × ℚ)) ≠ [] ∧
      (∃ kmin kmax vmin vmax,
        kmin ∈ ([((-2 : ℚ), (4 : ℚ)), ((-5 : ℚ), (3 : ℚ))] : List (ℚ × ℚ)).map Prod.fst ∧
        (∀ x ∈ ([((-2 : ℚ), (4 : ℚ)), ((-5 : ℚ), (3 : ℚ))] : List (ℚ × ℚ)).map Prod.fst, kmin ≤ x) ∧
        kmax ∈ ([((-2 : ℚ), (4 : ℚ)), ((-5 : ℚ), (3 : ℚ))] : List (ℚ × ℚ)).map Prod.snd ∧
        (∀ x ∈ ([((-2 : ℚ), (4 : ℚ)), ((-5 : ℚ), (3 : ℚ))] : List (ℚ × ℚ)).map Prod.snd, x ≤ kmax) ∧
        vmin ∈ ([((-2 : ℚ), (4 : ℚ)), ((-5 : ℚ), (3 : ℚ))] : List (ℚ × ℚ)).map Prod.fst ∧
        (∀ x ∈ ([((-2 : ℚ), (4 : ℚ)), ((-5 : ℚ), (3 : ℚ))] : List (ℚ × ℚ)).map Prod.fst, vmin ≤ x) ∧
        vmax ∈ ([((-2 : ℚ), (4 : ℚ)), ((-5 : ℚ), (3 : ℚ))] : List (ℚ × ℚ)).map Prod.snd ∧
        (∀ x ∈ ([((-2 : ℚ), (4 : ℚ)), ((-5 : ℚ), (3 : ℚ))] : List (ℚ × ℚ)).map Prod.snd, x ≤ vmax) ∧
        finalizeAsym 8 [((-2 : ℚ), 4), ((-5 : ℚ), 3)] [((-2 : ℚ), 4), ((-5 : ℚ), 3)] =
          [(kmax - kmin) / ((2 : ℚ) ^ 8 - 1), kmin,
           (vmax - vmin) / ((2 : ℚ) ^ 8 - 1), vmin])) ∧
    finalizeAsym 8 [((-2 : ℚ), 4), ((-5 : ℚ), 3)] [((-2 : ℚ), 4), ((-5 : ℚ), 3)] =
      [9 / 255, -5, 9 / 255, -5] :=
  ⟨⟨by decide, by decide,
    C2_asymmetric_finalization 8 [((-2 : ℚ), 4), ((-5 : ℚ), 3)] [((-2 : ℚ), 4), ((-5 : ℚ), 3)]
      (by decide) (by decide) (by decide)⟩,
   by simp [finalizeAsym, listMax, listMin, List.foldl]; norm_num [max_def, min_def]⟩

/-- C4 counterexample: with a zero-width value range at `bits = 8` the code
writes a scale of exactly `0` — it is not clamped to any positive value and no
error value is produced (symmetric buffer `[0]`, asymmetric buffer
`[(5, 5)]`). -/
theorem C4_counterexample :
    finalizeSym 8 [(0 : ℚ)] [(0 : ℚ)] = [0, 0] ∧
    finalizeAsym 8 [((5 : ℚ), (5 : ℚ))] [((5 : ℚ), (5 : ℚ))] = [0, 5, 0, 5] := by
  constructor
  · simp [finalizeSym, listMax, List.foldl]
  · simp [finalizeAsym, listMax, listMin, List.foldl]

/-- C4 (amended): finalization does not fault on a zero-width range — the
divisor `2^(bits-1) - 1` resp. `2^bits - 1` is a constant, not the range — but
nothing clamps the result: whenever the symmetric absolute maximum is `0`, or
the asymmetric overall maximum equals the overall minimum, the scale that gets
serialized is exactly `0`. -/
theorem C4_zero_range_scale (bits : ℕ) (kbuf vbuf : List ℚ) (kp vp : List (ℚ × ℚ))
    (hsym : listMax kbuf = 0)
    (hasym : listMax (kp.map Prod.snd) = listMin (kp.map Prod.fst)) :
    (finalizeSym bits kbuf vbuf).head? = some 0 ∧
    (finalizeAsym bits kp vp).head? = some 0 := by
  constructor
  · simp [finalizeSym, hsym]
  · simp [finalizeAsym, hasym]

/-- Witness for C4 (amended) at `bits = 8`, symmetric buffer `[0]`,
asymmetric buffer `[(5, 5)]`. -/
theorem C4_zero_range_scale_witness :
    (listMax [(0 : ℚ)] = 0 ∧
      listMax (([((5 : ℚ), (5 : ℚ))] : List (ℚ × ℚ)).map Prod.snd) =
        listMin (([((5 : ℚ), (5 : ℚ))] : List (ℚ × ℚ)).map Prod.fst)) ∧
    (finalizeSym 8 [(0 : ℚ)] [(0 : ℚ)]).head? = some 0 ∧
    (finalizeAsym 8 [((5 : ℚ), (5 : ℚ))] [((5 : ℚ), (5 : ℚ))]).head? = some 0 :=
  ⟨⟨by decide, by decide⟩,
   C4_zero_range_scale 8 [(0 : ℚ)] [(0 : ℚ)] [((5 : ℚ), (5 : ℚ))] [((5 : ℚ), (5 : ℚ))]
     (by decide) (by decide)⟩

/- ----------------------------------------------------------------
Sharding lemmas and claims C6, C3 (shard splitting, lines 85-92).
---------------------------------------------------------------- -/

lemma sliceRow_shard (r : List Cell) (per S : ℕ) :
    sliceRow r (S * per) ((S + 1) * per) = (r.drop (S * per)).take per := by
  rw [sliceRow, Nat.succ_mul, Nat.add_sub_cancel_left]

lemma range_flatMap_slice (per : ℕ) :
    ∀ (n : ℕ) (r : List Cell),
      (List.range n).flatMap (fun S => sliceRow r (S * per) ((S + 1) * per)) =
        r.take (n * per) := by
  intro n
  induction n with
  | zero => intro r; simp
  | succ m ih =>
      intro r
      rw [List.range_succ, List.flatMap_append, ih, Nat.succ_mul, List.take_add]
      simp [sliceRow_shard]

lemma biUnion_shardRange (T per : ℕ) :
    (Finset.range T).biUnion (shardRange per) = Finset.Ico 0 (T * per) := by
  ext x
  simp only [Finset.mem_biUnion, Finset.mem_range, shardRange, Finset.mem_Ico, Nat.zero_le,
    true_and]
  constructor
  · rintro ⟨S, hS, _, hx2⟩
    calc x < (S + 1) * per := hx2
      _ ≤ T * per := Nat.mul_le_mul_right per (Nat.succ_le_of_lt hS)
  · intro hx
    have hper : 0 < per := by
      rcases Nat.eq_zero_or_pos per with h0 | h0
      · subst h0; exact absurd hx (by simp)
      · exact h0
    have hmod : x % per < per := Nat.mod_lt x hper
    have hdm : per * (x / per) + x % per = x := Nat.div_add_mod x per
    refine ⟨x / per, (Nat.div_lt_iff_lt_mul hper).mpr hx,
      Nat.div_mul_le_self x per, ?_⟩
    calc x = per * (x / per) + x % per := hdm.symm
      _ < per * (x / per) + per := Nat.add_lt_add_left hmod _
      _ = (x / per + 1) * per := by ring

/-- C6: for every `num_tp` that evenly divides the head count `H`, the shard
slices are the pairwise disjoint contiguous half-open head ranges
`[S * per_tp_heads, (S+1) * per_tp_heads)`, whose union is the whole head axis
and whose concatenation in shard order rebuilds every batch row exactly (so
all other axes are left intact). -/
theorem C6_shard_reconstruction (c : Cache) (H numTp : ℕ)
    (hT : 0 < numTp) (hdvd : numTp ∣ H) (hrect : ∀ r ∈ c, r.length = H) :
    (∀ S1 S2 : ℕ, S1 < S2 →
      Disjoint (shardRange (H / numTp) S1) (shardRange (H / numTp) S2)) ∧
    (Finset.range numTp).biUnion (shardRange (H / numTp)) = Finset.Ico 0 H ∧
    concatShards c (H / numTp) numTp = c ∧
    (∀ lo hi, (sliceCache c lo hi).length = c.length) := by
  have hmul : numTp * (H / numTp) = H := Nat.mul_div_cancel' hdvd
  refine ⟨?_, ?_, ?_, ?_⟩
  · intro S1 S2 h12
    rw [Finset.disjoint_left]
    intro x hx1 hx2
    rw [shardRange, Finset.mem_Ico] at hx1 hx2
    have hle : (S1 + 1) * (H / numTp) ≤ S2 * (H / numTp) :=
      Nat.mul_le_mul_right _ (Nat.succ_le_of_lt h12)
    exact absurd hx2.1 (Nat.not_le.mpr (Nat.lt_of_lt_of_le hx1.2 hle))
  · rw [biUnion_shardRange, hmul]
  · rw [concatShards]
    have hrow : ∀ r ∈ c,
        (List.range numTp).flatMap
          (fun S => sliceRow r (S * (H / numTp)) ((S + 1) * (H / numTp))) = id r := by
      intro r hr
      rw [range_flatMap_slice, hmul, ← hrect r hr, List.take_length, id]
    rw [List.map_congr_left hrow, List.map_id]
  · intro lo hi
    rw [sliceCache, List.length_map]

/-- Witness for C6: a one-row cache with 4 heads split into 2 shards. -/
theorem C6_shard_reconstruction_witness :
    ((0 < 2) ∧ (2 ∣ 4) ∧
      (∀ r ∈ ([[[(1 : ℚ)], [2], [3], [4]]] : Cache), r.length = 4)) ∧
    ((∀ S1 S2 : ℕ, S1 < S2 → Disjoint (shardRange (4 / 2) S1) (shardRange (4 / 2) S2)) ∧
      (Finset.range 2).biUnion (shardRange (4 / 2)) = Finset.Ico 0 4 ∧
      concatShards ([[[(1 : ℚ)], [2], [3], [4]]] : Cache) (4 / 2) 2 =
        ([[[(1 : ℚ)], [2], [3], [4]]] : Cache) ∧
      (∀ lo hi,
        (sliceCache ([[[(1 : ℚ)], [2], [3], [4]]] : Cache) lo hi).length =
          ([[[(1 : ℚ)], [2], [3], [4]]] : Cache).length)) :=
  ⟨⟨by decide, by decide, by decide⟩,
   C6_shard_reconstruction [[[(1 : ℚ)], [2], [3], [4]]] 4 2 (by decide) (by decide) (by decide)⟩

/- ----------------------------------------------------------------
Observer model and the stats-collection routine
(`stats_past_key_values`, lines 51-92).
---------------------------------------------------------------- -/

/-- The reduction function handed to an `Observer` at creation: `absmax` in
symmetric mode, `minmax` in asymmetric mode (source lines 69-74). -/
inductive Reducer
  | absmax
  | minmax
deriving DecidableEq, Repr

/-- One buffered observation: a scalar (from `absmax`) or a (min, max) pair
(from `minmax`); the Python buffer is heterogeneous, so this is a sum. -/
inductive Stat
  | scalar (x : ℚ)
  | pair (lo hi : ℚ)
deriving DecidableEq, Repr

def applyReducer : Reducer → Cache → Stat
  | Reducer.absmax, c => Stat.scalar (absmax c)
  | Reducer.minmax, c => Stat.pair (minmax c).1 (minmax c).2

/-- Modelled from the spec: the `Observer` class comes from
`lmdeploy.lite.quantization`, which is not in this source snapshot.  Per spec
§4.2 it holds a reducer, an enabled flag and an ordered buffer. -/
structure Observer where
  reducer : Reducer
  enabled : Bool
  buffer : List Stat
deriving DecidableEq, Repr

/-- `Observer.enable_observer()` (spec §4.2: enable recording). -/
def Observer.enable_observer (o : Observer) : Observer := { o with enabled := true }

/-- Modelled from the spec (§4.2): calling the observer on a tensor appends
the reducer's output to the buffer when enabled and is a no-op when
disabled. -/
def Observer.observe (o : Observer) (c : Cache) : Observer :=
  if o.enabled then { o with buffer := o.buffer ++ [applyReducer o.reducer c] } else o

/-- The single pool-size consistency failure the routine can raise: the two
`assert len(...) == len(past_key_values) * num_tp` statements at lines
82-83. -/
inductive ConsistencyError
  | poolSizeMismatch
deriving DecidableEq, Repr

abbrev ObsPool := List Observer × List Observer

/-- Creation of one observer in the first-batch branch (lines 69-77):
reducer chosen by symmetry mode, then enabled. -/
def mkObserver (symmetry : Bool) : Observer :=
  Observer.enable_observer
    { reducer := if symmetry then Reducer.absmax else Reducer.minmax
      enabled := false
      buffer := [] }

/-- The lazily created pool of the first-batch branch (lines 66-80):
`num_layers * num_tp` key observers and as many value observers. -/
def initPool (pkv : List (Cache × Cache)) (symmetry : Bool) (num_tp : ℕ) : ObsPool :=
  ((List.range (pkv.length * num_tp)).map (fun _ => mkObserver symmetry),
   (List.range (pkv.length * num_tp)).map (fun _ => mkObserver symmetry))

/-- In-place update of the observer object stored at index `i`
(`k_obs_list[i]` is fetched and mutated by calling it). -/
def listModify : List Observer → ℕ → (Observer → Observer) → List Observer
  | [], _, _ => []
  | a :: l, 0, f => f a :: l
  | a :: l, n + 1, f => a :: listModify l n f

/-- The inner `for tp in range(num_tp)` loop of lines 86-92, processing the
given list of shard indices in order for the layer `layer`. -/
def observeShards (kc vc : Cache) (num_tp layer : ℕ) :
    List ℕ → ObsPool → ObsPool
  | [], kv => kv
  | tp :: tps, kv =>
    let per_tp_heads := size1 kc / num_tp
    observeShards kc vc num_tp layer tps
      (listModify kv.1 (layer * num_tp + tp)
        (fun o => o.observe (sliceCache kc (tp * per_tp_heads) ((tp + 1) * per_tp_heads))),
       listModify kv.2 (layer * num_tp + tp)
        (fun o => o.observe (sliceCache vc (tp * per_tp_heads) ((tp + 1) * per_tp_heads))))

/-- The outer `for layer, (k_cache, v_cache) in enumerate(past_key_values)`
loop of lines 85-92, with `layer` the running enumeration counter. -/
def observeLayers (num_tp : ℕ) : ℕ → List (Cache × Cache) → ObsPool → ObsPool
  | _, [], kv => kv
  | layer, (kc, vc) :: rest, kv =>
    observeLayers num_tp (layer + 1) rest
      (observeShards kc vc num_tp layer (List.range num_tp) kv)

/-- The two asserts of lines 82-83 followed by the observation loops. -/
def statsChecked (pkv : List (Cache × Cache)) (pool : ObsPool) (num_tp : ℕ) :
    Except ConsistencyError ObsPool :=
  if pool.1.length = pkv.length * num_tp then
    if pool.2.length = pkv.length * num_tp then
      Except.ok (observeLayers num_tp 0 pkv pool)
    else Except.error ConsistencyError.poolSizeMismatch
  else Except.error ConsistencyError.poolSizeMismatch

/-- `stats_past_key_values` (lines 51-92): lazily initialize the observer
pool when both lists are empty, assert the pool sizes, then feed every
layer's shard slices to the matching observers. -/
def stats_past_key_values (past_key_values : List (Cache × Cache))
    (k_obs_list v_obs_list : List Observer) (symmetry : Bool) (num_tp : ℕ) :
    Except ConsistencyError ObsPool :=
  statsChecked past_key_values
    (if k_obs_list.length = 0 ∧ v_obs_list.length = 0 then
      initPool past_key_values symmetry num_tp
    else (k_obs_list, v_obs_list)) num_tp

/-- The calibration loop of `main` (lines 150-158): one
`stats_past_key_values` call per batch, threading the observer lists. -/
def runBatches (symmetry : Bool) (num_tp : ℕ) :
    List (List (Cache × Cache)) → ObsPool → Except ConsistencyError ObsPool
  | [], kv => Except.ok kv
  | b :: bs, kv =>
    match stats_past_key_values b kv.1 kv.2 symmetry num_tp with
    | Except.ok kv' => runBatches symmetry num_tp bs kv'
    | Except.error e => Except.error e

/- ----------------------------------------------------------------
Loop lemmas for the observation loops.
---------------------------------------------------------------- -/

lemma listModify_length : ∀ (l : List Observer) (i : ℕ) (f : Observer → Observer),
    (listModify l i f).length = l.length := by
  intro l
  induction l with
  | nil => intro i f; rfl
  | cons a l ih =>
      intro i f
      cases i with
      | zero => rfl
      | succ n => simp only [listModify, List.length_cons, ih]

lemma listModify_get_ne : ∀ (l : List Observer) (i : ℕ) (f : Observer → Observer) (j : ℕ),
    j ≠ i → (listModify l i f).get? j = l.get? j := by
  intro l
  induction l with
  | nil => intro i f j _; rfl
  | cons a l ih =>
      intro i f j h
      cases i with
      | zero =>
          cases j with
          | zero => exact absurd rfl h
          | succ m => rfl
      | succ n =>
          cases j with
          | zero => rfl
          | succ m =>
              show (listModify l n f).get? m = l.get? m
              exact ih n f m (fun hc => h (by rw [hc]))

lemma listModify_get_eq : ∀ (l : List Observer) (i : ℕ) (f : Observer → Observer),
    (listModify l i f).get? i = (l.get? i).map f := by
  intro l
  induction l with
  | nil => intro i f; rfl
  | cons a l ih =>
      intro i f
      cases i with
      | zero => rfl
      | succ n =>
          show (listModify l n f).get? n = (l.get? n).map f
          exact ih n f

lemma observeShards_len (kc vc : Cache) (T layer : ℕ) :
    ∀ (tps : List ℕ) (kv : ObsPool),
      (observeShards kc vc T layer tps kv).1.length = kv.1.length ∧
      (observeShards kc vc T layer tps kv).2.length = kv.2.length := by
  intro tps
  induction tps with
  | nil => intro kv; exact ⟨rfl, rfl⟩
  | cons t ts ih =>
      intro kv
      simp only [observeShards]
      refine ⟨?_, ?_⟩
      · rw [(ih _).1]; exact listModify_length _ _ _
      · rw [(ih _).2]; exact listModify_length _ _ _

lemma observeShards_get_miss (kc vc : Cache) (T layer : ℕ) :
    ∀ (tps : List ℕ) (kv : ObsPool) (j : ℕ), (∀ tp ∈ tps, layer * T + tp ≠ j) →
      (observeShards kc vc T layer tps kv).1.get? j = kv.1.get? j ∧
      (observeShards kc vc T layer tps kv).2.get? j = kv.2.get? j := by
  intro tps
  induction tps with
  | nil => intro kv j _; exact ⟨rfl, rfl⟩
  | cons t ts ih =>
      intro kv j h
      have ht : layer * T + t ≠ j := h t (List.mem_cons_self t ts)
      have hts : ∀ tp ∈ ts, layer * T + tp ≠ j :=
        fun tp htp => h tp (List.mem_cons_of_mem t htp)
      simp only [observeShards]
      refine ⟨?_, ?_⟩
      · rw [(ih _ j hts).1]
        exact listModify_get_ne _ _ _ j (fun hc => ht hc.symm)
      · rw [(ih _ j hts).2]
        exact listModify_get_ne _ _ _ j (fun hc => ht hc.symm)

lemma observeShards_get_hit (kc vc : Cache) (T layer : ℕ) :
    ∀ (tps : List ℕ) (kv : ObsPool) (tp0 : ℕ), tp0 ∈ tps → tps.Nodup →
      (observeShards kc vc T layer tps kv).1.get? (layer * T + tp0) =
        (kv.1.get? (layer * T + tp0)).map
          (fun o => o.observe
            (sliceCache kc (tp0 * (size1 kc / T)) ((tp0 + 1) * (size1 kc / T)))) ∧
      (observeShards kc vc T layer tps kv).2.get? (layer * T + tp0) =
        (kv.2.get? (layer * T + tp0)).map
          (fun o => o.observe
            (sliceCache vc (tp0 * (size1 kc / T)) ((tp0 + 1) * (size1 kc / T)))) := by
  intro tps
  induction tps with
  | nil => intro kv tp0 h _; cases h
  | cons t ts ih =>
      intro kv tp0 hmem hnd
      have hnd1 : t ∉ ts := (List.nodup_cons.mp hnd).1
      have hnd2 : ts.Nodup := (List.nodup_cons.mp hnd).2
      rcases List.mem_cons.mp hmem with heq | hmem2
      · subst heq
        have hmiss : ∀ tp ∈ ts, layer * T + tp ≠ layer * T + tp0 := by
          intro tp htp hc
          exact hnd1 ((Nat.add_left_cancel hc) ▸ htp)
        simp only [observeShards]
        refine ⟨?_, ?_⟩
        · rw [(observeShards_get_miss kc vc T layer ts _ _ hmiss).1, listModify_get_eq]
        · rw [(observeShards_get_miss kc vc T layer ts _ _ hmiss).2, listModify_get_eq]
      · have htne : layer * T + tp0 ≠ layer * T + t := by
          intro hc
          exact hnd1 ((Nat.add_left_cancel hc) ▸ hmem2)
        simp only [observeShards]
        refine ⟨?_, ?_⟩
        · rw [(ih _ tp0 hmem2 hnd2).1, listModify_get_ne _ _ _ _ htne]
        · rw [(ih _ tp0 hmem2 hnd2).2, listModify_get_ne _ _ _ _ htne]

lemma observeLayers_len (T : ℕ) :
    ∀ (pkv : List (Cache × Cache)) (start : ℕ) (kv : ObsPool),
      (observeLayers T start pkv kv).1.length = kv.1.length ∧
      (observeLayers T start pkv kv).2.length = kv.2.length := by
  intro pkv
  induction pkv with
  | nil => intro start kv; exact ⟨rfl, rfl⟩
  | cons p rest ih =>
      intro start kv
      obtain ⟨kc, vc⟩ := p
      simp only [observeLayers]
      refine ⟨?_, ?_⟩
      · rw [(ih _ _).1, (observeShards_len kc vc T start _ _).1]
      · rw [(ih _ _).2, (observeShards_len kc vc T start _ _).2]

lemma observeLayers_get_lo (T : ℕ) :
    ∀ (pkv : List (Cache × Cache)) (start : ℕ) (kv : ObsPool) (j : ℕ), j < start * T →
      (observeLayers T start pkv kv).1.get? j = kv.1.get? j ∧
      (observeLayers T start pkv kv).2.get? j = kv.2.get? j := by
  intro pkv
  induction pkv with
  | nil => intro start kv j _; exact ⟨rfl, rfl⟩
  | cons p rest ih =>
      intro start kv j hj
      obtain ⟨kc, vc⟩ := p
      have hmiss : ∀ tp ∈ List.range T, start * T + tp ≠ j := by
        intro tp _ hc
        have hle : start * T ≤ j := by rw [← hc]; exact Nat.le_add_right _ _
        exact absurd hj (Nat.not_lt.mpr hle)
      have hj1 : j < (start + 1) * T :=
        lt_of_lt_of_le hj (Nat.mul_le_mul_right T (Nat.le_succ start))
      simp only [observeLayers]
      refine ⟨?_, ?_⟩
      · rw [(ih (start + 1) _ j hj1).1,
          (observeShards_get_miss kc vc T start (List.range T) kv j hmiss).1]
      · rw [(ih (start + 1) _ j hj1).2,
          (observeShards_get_miss kc vc T start (List.range T) kv j hmiss).2]

lemma observeLayers_get_hit (T : ℕ) :
    ∀ (pkv : List (Cache × Cache)) (start : ℕ) (kv : ObsPool) (j : ℕ),
      start * T ≤ j → j < (start + pkv.length) * T →
      ∃ ck cv,
        (observeLayers T start pkv kv).1.get? j = (kv.1.get? j).map (fun o => o.observe ck) ∧
        (observeLayers T start pkv kv).2.get? j = (kv.2.get? j).map (fun o => o.observe cv) := by
  intro pkv
  induction pkv with
  | nil =>
      intro start kv j h1 h2
      rw [List.length_nil, Nat.add_zero] at h2
      exact absurd h1 (Nat.not_le.mpr h2)
  | cons p rest ih =>
      intro start kv j h1 h2
      obtain ⟨kc, vc⟩ := p
      by_cases hcase : j < (start + 1) * T
      · have hcase' : j < start * T + T := by rwa [Nat.succ_mul] at hcase
        have htp0T : j - start * T < T := Nat.sub_lt_left_of_lt_add h1 hcase'
        have hj : start * T + (j - start * T) = j := Nat.add_sub_cancel' h1
        have hmem : j - start * T ∈ List.range T := List.mem_range.mpr htp0T
        have hhit :=
          observeShards_get_hit kc vc T start (List.range T) kv (j - start * T) hmem
            (List.nodup_range T)
        have hjlt : j < (start + 1) * T := hcase
        have hlo := observeLayers_get_lo T rest (start + 1)
          (observeShards kc vc T start (List.range T) kv) j hjlt
        rw [hj] at hhit
        simp only [observeLayers]
        exact ⟨_, _, by rw [hlo.1, hhit.1], by rw [hlo.2, hhit.2]⟩
      · have hge : (start + 1) * T ≤ j := Nat.not_lt.mp hcase
        have hmiss : ∀ tp ∈ List.range T, start * T + tp ≠ j := by
          intro tp htp hc
          have h' : start * T + tp < (start + 1) * T := by
            rw [Nat.succ_mul]
            exact Nat.add_lt_add_left (List.mem_range.mp htp) _
          rw [hc] at h'
          exact absurd hge (Nat.not_le.mpr h')
        have h2' : j < (start + 1 + rest.length) * T := by
          have harith : start + 1 + rest.length = start + (rest.length + 1) := by ring
          rw [harith]
          rwa [List.length_cons] at h2
        obtain ⟨ck, cv, hk, hv⟩ :=
          ih (start + 1) (observeShards kc vc T start (List.range T) kv) j hge h2'
        simp only [observeLayers]
        refine ⟨ck, cv, ?_, ?_⟩
        · rw [hk, (observeShards_get_miss kc vc T start (List.range T) kv j hmiss).1]
        · rw [hv, (observeShards_get_miss kc vc T start (List.range T) kv j hmiss).2]

/- ----------------------------------------------------------------
Observer-pool invariants across batches.
---------------------------------------------------------------- -/

/-- The state of one observer after `b` accepted observations. -/
def ObsGood (r : Reducer) (b : ℕ) (o : Observer) : Prop :=
  o.reducer = r ∧ o.enabled = true ∧ o.buffer.length = b

lemma observe_good (r : Reducer) (b : ℕ) (o : Observer) (c : Cache)
    (h : ObsGood r b o) : ObsGood r (b + 1) (o.observe c) := by
  obtain ⟨h1, h2, h3⟩ := h
  simp [Observer.observe, ObsGood, h1, h2, h3]

lemma observeLayers_good (T L b : ℕ) (r : Reducer) (pkv : List (Cache × Cache))
    (kv : ObsPool) (hL : pkv.length = L)
    (hk : kv.1.length = L * T) (hv : kv.2.length = L * T)
    (hko : ∀ o ∈ kv.1, ObsGood r b o) (hvo : ∀ o ∈ kv.2, ObsGood r b o) :
    (observeLayers T 0 pkv kv).1.length = L * T ∧
    (observeLayers T 0 pkv kv).2.length = L * T ∧
    (∀ o ∈ (observeLayers T 0 pkv kv).1, ObsGood r (b + 1) o) ∧
    (∀ o ∈ (observeLayers T 0 pkv kv).2, ObsGood r (b + 1) o) := by
  have hlen := observeLayers_len T pkv 0 kv
  refine ⟨by rw [hlen.1, hk], by rw [hlen.2, hv], ?_, ?_⟩
  · intro o ho
    obtain ⟨j, hj⟩ := List.mem_iff_get?.mp ho
    have hjlt : j < L * T := by
      obtain ⟨hlt, _⟩ := List.get?_eq_some.mp hj
      rwa [hlen.1, hk] at hlt
    obtain ⟨ck, cv, hck, hcv⟩ := observeLayers_get_hit T pkv 0 kv j
      (by simp) (by rw [Nat.zero_add, hL]; exact hjlt)
    rw [hck] at hj
    obtain ⟨o0, ho0, heq⟩ := Option.map_eq_some'.mp hj
    rw [← heq]
    exact observe_good r b o0 ck (hko o0 (List.get?_mem ho0))
  · intro o ho
    obtain ⟨j, hj⟩ := List.mem_iff_get?.mp ho
    have hjlt : j < L * T := by
      obtain ⟨hlt, _⟩ := List.get?_eq_some.mp hj
      rwa [hlen.2, hv] at hlt
    obtain ⟨ck, cv, hck, hcv⟩ := observeLayers_get_hit T pkv 0 kv j
      (by simp) (by rw [Nat.zero_add, hL]; exact hjlt)
    rw [hcv] at hj
    obtain ⟨o0, ho0, heq⟩ := Option.map_eq_some'.mp hj
    rw [← heq]
    exact observe_good r b o0 cv (hvo o0 (List.get?_mem ho0))

lemma stats_sized (pkv : List (Cache × Cache)) (k v : List Observer) (s : Bool)
    (T L b : ℕ) (r : Reducer)
    (hL : pkv.length = L) (hk : k.length = L * T) (hv : v.length = L * T)
    (hko : ∀ o ∈ k, ObsGood r b o) (hvo : ∀ o ∈ v, ObsGood r b o) :
    ∃ kv', stats_past_key_values pkv k v s T = Except.ok kv' ∧
      kv'.1.length = L * T ∧ kv'.2.length = L * T ∧
      (∀ o ∈ kv'.1, ObsGood r (b + 1) o) ∧ (∀ o ∈ kv'.2, ObsGood r (b + 1) o) := by
  by_cases hcase : k.length = 0 ∧ v.length = 0
  · have hLT : L * T = 0 := by rw [← hk]; exact hcase.1
    have hinit : initPool pkv s T = ([], []) := by
      rw [initPool, hL, hLT]
      simp
    have hgood := observeLayers_good T L b r pkv ([], []) hL
      (by simp [hLT]) (by simp [hLT]) (by simp) (by simp)
    refine ⟨observeLayers T 0 pkv ([], []), ?_, hgood.1, hgood.2.1, hgood.2.2.1, hgood.2.2.2⟩
    rw [stats_past_key_values, if_pos hcase, hinit, statsChecked]
    have hz : pkv.length * T = 0 := by rw [hL]; exact hLT
    rw [hz]
    simp
  · have hgood := observeLayers_good T L b r pkv (k, v) hL hk hv hko hvo
    refine ⟨observeLayers T 0 pkv (k, v), ?_, hgood.1, hgood.2.1, hgood.2.2.1, hgood.2.2.2⟩
    rw [stats_past_key_values, if_neg hcase, statsChecked]
    have hc1 : (k, v).1.length = pkv.length * T := by rw [hL]; exact hk
    have hc2 : (k, v).2.length = pkv.length * T := by rw [hL]; exact hv
    rw [if_pos hc1, if_pos hc2]

lemma stats_first_batch (pkv : List (Cache × Cache)) (s : Bool) (T : ℕ) :
    ∃ kv, stats_past_key_values pkv [] [] s T = Except.ok kv ∧
      kv.1.length = pkv.length * T ∧ kv.2.length = pkv.length * T ∧
      (∀ o ∈ kv.1, ObsGood (if s then Reducer.absmax else Reducer.minmax) 1 o) ∧
      (∀ o ∈ kv.2, ObsGood (if s then Reducer.absmax else Reducer.minmax) 1 o) := by
  have hmk : ObsGood (if s then Reducer.absmax else Reducer.minmax) 0 (mkObserver s) :=
    ⟨rfl, rfl, rfl⟩
  have hlen1 : (initPool pkv s T).1.length = pkv.length * T := by simp [initPool]
  have hlen2 : (initPool pkv s T).2.length = pkv.length * T := by simp [initPool]
  have hgo1 : ∀ o ∈ (initPool pkv s T).1,
      ObsGood (if s then Reducer.absmax else Reducer.minmax) 0 o := by
    intro o ho
    obtain ⟨n, _, rfl⟩ := List.mem_map.mp ho
    exact hmk
  have hgo2 : ∀ o ∈ (initPool pkv s T).2,
      ObsGood (if s then Reducer.absmax else Reducer.minmax) 0 o := by
    intro o ho
    obtain ⟨n, _, rfl⟩ := List.mem_map.mp ho
    exact hmk
  have hgood := observeLayers_good T pkv.length 0
    (if s then Reducer.absmax else Reducer.minmax) pkv (initPool pkv s T) rfl
    hlen1 hlen2 hgo1 hgo2
  refine ⟨observeLayers T 0 pkv (initPool pkv s T), ?_,
    hgood.1, hgood.2.1, hgood.2.2.1, hgood.2.2.2⟩
  rw [stats_past_key_values, if_pos ⟨rfl, rfl⟩, statsChecked,
    if_pos hlen1, if_pos hlen2]

lemma runBatches_accumulate (s : Bool) (T L : ℕ) (r : Reducer) :
    ∀ (batches : List (List (Cache × Cache))) (kv : ObsPool) (b : ℕ),
      (∀ bt ∈ batches, bt.length = L) →
      kv.1.length = L * T → kv.2.length = L * T →
      (∀ o ∈ kv.1, ObsGood r b o) → (∀ o ∈ kv.2, ObsGood r b o) →
      ∃ kv', runBatches s T batches kv = Except.ok kv' ∧
        kv'.1.length = L * T ∧ kv'.2.length = L * T ∧
        (∀ o ∈ kv'.1, ObsGood r (b + batches.length) o) ∧
        (∀ o ∈ kv'.2, ObsGood r (b + batches.length) o) := by
  intro batches
  induction batches with
  | nil =>
      intro kv b _ hk hv hko hvo
      exact ⟨kv, rfl, hk, hv, by simpa using hko, by simpa using hvo⟩
  | cons bt bts ih =>
      intro kv b hbt hk hv hko hvo
      obtain ⟨kv1, hok1, hk1, hv1, hko1, hvo1⟩ :=
        stats_sized bt kv.1 kv.2 s T L b r (hbt bt (List.mem_cons_self bt bts)) hk hv hko hvo
      obtain ⟨kv2, hok2, hk2, hv2, hko2, hvo2⟩ :=
        ih kv1 (b + 1) (fun x hx => hbt x (List.mem_cons_of_mem bt hx)) hk1 hv1 hko1 hvo1
      have harith : b + 1 + bts.length = b + (bt :: bts).length := by
        rw [List.length_cons]; ring
      refine ⟨kv2, ?_, hk2, hv2, ?_, ?_⟩
      · simp only [runBatches, hok1]
        exact hok2
      · intro o ho
        have h := hko2 o ho
        rwa [harith] at h
      · intro o ho
        have h := hvo2 o ho
        rwa [harith] at h

/- ----------------------------------------------------------------
Claims C3, C7, C8 (the collection routine).
---------------------------------------------------------------- -/

/-- A concrete one-batch-row cache with 3 attention heads. -/
def headsCache : Cache := [[[(1 : ℚ)], [2], [3]]]

/-- C3 counterexample: with 3 heads and `num_tp = 2` (which does not divide
3), the collection routine does not raise any error — it returns
successfully, contradicting the claimed ConsistencyError. -/
theorem C3_counterexample :
    size1 headsCache = 3 ∧ ¬ (2 ∣ size1 headsCache) ∧
    ∃ kv, stats_past_key_values [(headsCache, headsCache)] [] [] true 2 = Except.ok kv := by
  refine ⟨rfl, by decide, ?_⟩
  obtain ⟨kv, hok, -, -, -, -⟩ := stats_first_batch [(headsCache, headsCache)] true 2
  exact ⟨kv, hok⟩

/-- C3 (amended): when `num_tp` does not evenly divide the head count `H`,
no error is raised at all — the per-shard head count is the floor `H / num_tp`
(line 90 uses integer floor division with no divisibility check), the routine
completes normally, and the shard ranges cover only the first
`num_tp * (H / num_tp) < H` heads, silently dropping the remainder. -/
theorem C3_floor_division_no_error (T H : ℕ) (pkv : List (Cache × Cache)) (s : Bool)
    (hT : 0 < T) (hnd : ¬ T ∣ H) :
    (∃ kv, stats_past_key_values pkv [] [] s T = Except.ok kv) ∧
    T * (H / T) < H ∧
    (Finset.range T).biUnion (shardRange (H / T)) = Finset.Ico 0 (T * (H / T)) := by
  refine ⟨?_, ?_, biUnion_shardRange T (H / T)⟩
  · obtain ⟨kv, hok, -, -, -, -⟩ := stats_first_batch pkv s T
    exact ⟨kv, hok⟩
  · have hle : T * (H / T) ≤ H := by
      rw [Nat.mul_comm]; exact Nat.div_mul_le_self H T
    rcases Nat.lt_or_ge (T * (H / T)) H with h | h
    · exact h
    · exact absurd ⟨H / T, (Nat.le_antisymm hle h).symm⟩ hnd

/-- Witness for C3 (amended) at `num_tp = 2`, `H = 3`. -/
theorem C3_floor_division_no_error_witness :
    ((0 < 2) ∧ ¬ (2 ∣ 3)) ∧
    ((∃ kv, stats_past_key_values [(headsCache, headsCache)] [] [] true 2 = Except.ok kv) ∧
      2 * (3 / 2) < 3 ∧
      (Finset.range 2).biUnion (shardRange (3 / 2)) = Finset.Ico 0 (2 * (3 / 2))) :=
  ⟨⟨by decide, by decide⟩,
   C3_floor_division_no_error 2 3 [(headsCache, headsCache)] true (by decide) (by decide)⟩

/-- C7: once the observer pool has been initialized (it is nonempty, sized
`L * num_tp` for the initializing layer count `L`), a batch whose layer count
differs from `L` makes the routine fail with the pool-size ConsistencyError
instead of recording anything. -/
theorem C7_layer_count_mismatch (k v : List Observer) (pkv : List (Cache × Cache))
    (s : Bool) (T L : ℕ)
    (hk : k.length = L * T) (hv : v.length = L * T) (hpos : 0 < k.length)
    (hdiff : pkv.length ≠ L) :
    stats_past_key_values pkv k v s T = Except.error ConsistencyError.poolSizeMismatch := by
  have hT : 0 < T := by
    rcases Nat.eq_zero_or_pos T with h0 | h0
    · rw [h0, Nat.mul_zero] at hk
      rw [hk] at hpos
      exact absurd hpos (lt_irrefl 0)
    · exact h0
  have hcase : ¬ (k.length = 0 ∧ v.length = 0) := by
    intro hc
    rw [hc.1] at hpos
    exact absurd hpos (lt_irrefl 0)
  rw [stats_past_key_values, if_neg hcase, statsChecked]
  have hne : ¬ ((k, v).1.length = pkv.length * T) := by
    intro hc
    rw [hk] at hc
    exact hdiff (Nat.eq_of_mul_eq_mul_right hT hc.symm)
  rw [if_neg hne]

/-- Witness for C7: a pool of one observer (L = 1, num_tp = 1) fed an empty
batch (0 layers). -/
theorem C7_layer_count_mismatch_witness :
    (([mkObserver true] : List Observer).length = 1 * 1 ∧
      ([mkObserver true] : List Observer).length = 1 * 1 ∧
      0 < ([mkObserver true] : List Observer).length ∧
      ([] : List (Cache × Cache)).length ≠ 1) ∧
    stats_past_key_values [] [mkObserver true] [mkObserver true] true 1 =
      Except.error ConsistencyError.poolSizeMismatch :=
  ⟨⟨rfl, rfl, by decide, by decide⟩,
   C7_layer_count_mismatch [mkObserver true] [mkObserver true] [] true 1 1
     rfl rfl (by decide) (by decide)⟩

/-- C8: running the collection over `B ≥ 1` batches of `L` layers with
`num_tp = T`, starting from empty observer lists, succeeds and yields exactly
`L*T` key observers and `L*T` value observers, each enabled, each using the
absmax reducer in symmetric mode and minmax in asymmetric mode, and each with
buffer length exactly `B` (one observation per batch; the buffer only
grows). -/
theorem C8_collection_creates_pool (s : Bool) (T L : ℕ)
    (batches : List (List (Cache × Cache)))
    (hB : batches ≠ []) (hL : ∀ bt ∈ batches, bt.length = L) :
    ∃ kv, runBatches s T batches ([], []) = Except.ok kv ∧
      kv.1.length = L * T ∧ kv.2.length = L * T ∧
      (∀ o ∈ kv.1, o.reducer = (if s then Reducer.absmax else Reducer.minmax) ∧
        o.enabled = true ∧ o.buffer.length = batches.length) ∧
      (∀ o ∈ kv.2, o.reducer = (if s then Reducer.absmax else Reducer.minmax) ∧
        o.enabled = true ∧ o.buffer.length = batches.length) := by
  obtain ⟨bt, bts, rfl⟩ := List.exists_cons_of_ne_nil hB
  have hbtL : bt.length = L := hL bt (List.mem_cons_self bt bts)
  obtain ⟨kv1, hok1, hk1, hv1, hko1, hvo1⟩ := stats_first_batch bt s T
  rw [hbtL] at hk1 hv1
  obtain ⟨kv2, hok2, hk2, hv2, hko2, hvo2⟩ :=
    runBatches_accumulate s T L (if s then Reducer.absmax else Reducer.minmax) bts kv1 1
      (fun x hx => hL x (List.mem_cons_of_mem bt hx)) hk1 hv1 hko1 hvo1
  have harith : 1 + bts.length = (bt :: bts).length := by
    rw [List.length_cons]; ring
  refine ⟨kv2, ?_, hk2, hv2, ?_, ?_⟩
  · simp only [runBatches, hok1]
    exact hok2
  · intro o ho
    have h := hko2 o ho
    rwa [harith] at h
  · intro o ho
    have h := hvo2 o ho
    rwa [harith] at h

/-- A minimal one-head cache used by the C8 witness. -/
def witCache : Cache := [[[(1 : ℚ)]]]

/-- The C8 witness calibration input: 2 batches of 1 layer each. -/
def witBatches : List (List (Cache × Cache)) :=
  [[(witCache, witCache)], [(witCache, witCache)]]

/-- Witness for C8: 2 batches, 1 layer, num_tp = 1, symmetric mode. -/
theorem C8_collection_creates_pool_witness :
    (witBatches ≠ [] ∧ ∀ bt ∈ witBatches, bt.length = 1) ∧
    (∃ kv, runBatches true 1 witBatches ([], []) = Except.ok kv ∧
      kv.1.length = 1 * 1 ∧ kv.2.length = 1 * 1 ∧
      (∀ o ∈ kv.1, o.reducer = (if true then Reducer.absmax else Reducer.minmax) ∧
        o.enabled = true ∧ o.buffer.length = witBatches.length) ∧
      (∀ o ∈ kv.2, o.reducer = (if true then Reducer.absmax else Reducer.minmax) ∧
        o.enabled = true ∧ o.buffer.length = witBatches.length)) :=
  ⟨⟨by decide, by decide⟩,
   C8_collection_creates_pool true 1 1 witBatches (by decide) (by decide)⟩

/- ----------------------------------------------------------------
The artifact writer of `main` (lines 160-194) and claim C5.
---------------------------------------------------------------- -/

/-- Projection of a buffered stat as the float the symmetric branch reads.
In a symmetric run every recorded stat is a scalar (the same `symmetry` flag
selects both the reducer at creation and this branch), so this is the
identity on everything the branch can actually see; the `pair` case is
unreachable junk. -/
def Stat.scalarVal : Stat → ℚ
  | Stat.scalar x => x
  | Stat.pair lo _ => lo

/-- Projection of a buffered stat as the (min, max) pair the asymmetric
branch reads; the `scalar` case is unreachable junk (see
`Stat.scalarVal`). -/
def Stat.pairVal : Stat → ℚ × ℚ
  | Stat.pair lo hi => (lo, hi)
  | Stat.scalar x => (x, x)

/-- The output path of line 168:
`f'layers.{layer}.past_kv_scale.{tp}.weight'`. -/
def savePath (layer tp : ℕ) : String :=
  "layers." ++ toString layer ++ ".past_kv_scale." ++ toString tp ++ ".weight"

/-- The enumeration loop of lines 164-194 starting at index `i`: one
`(path, payload)` artifact per zipped observer pair.  Each payload entry is
serialized as one little-endian 32-bit float (`np.float32` + `tofile`), i.e.
4 bytes per entry with no header. -/
def writeArtifactsFrom (bits num_tp : ℕ) (symmetry : Bool) :
    ℕ → List Observer → List Observer → List (String × List ℚ)
  | _, [], _ => []
  | _, _ :: _, [] => []
  | i, kO :: ks, vO :: vs =>
    (savePath (i / num_tp) (i % num_tp),
      if symmetry then
        finalizeSym bits (kO.buffer.map Stat.scalarVal) (vO.buffer.map Stat.scalarVal)
      else
        finalizeAsym bits (kO.buffer.map Stat.pairVal) (vO.buffer.map Stat.pairVal)) ::
      writeArtifactsFrom bits num_tp symmetry (i + 1) ks vs

/-- The whole finalization loop (`for i, (k_obs, v_obs) in
enumerate(zip(k_obs_list, v_obs_list))`). -/
def writeArtifacts (bits num_tp : ℕ) (symmetry : Bool)
    (k_obs_list v_obs_list : List Observer) : List (String × List ℚ) :=
  writeArtifactsFrom bits num_tp symmetry 0 k_obs_list v_obs_list

lemma writeArtifactsFrom_length (bits T : ℕ) (s : Bool) :
    ∀ (ks vs : List Observer) (i : ℕ),
      (writeArtifactsFrom bits T s i ks vs).length = min ks.length vs.length := by
  intro ks
  induction ks with
  | nil => intro vs i; simp [writeArtifactsFrom]
  | cons k ks ih =>
      intro vs i
      cases vs with
      | nil => simp [writeArtifactsFrom]
      | cons v vs =>
          simp only [writeArtifactsFrom, List.length_cons, ih vs (i + 1)]
          rw [Nat.succ_min_succ]

lemma writeArtifactsFrom_get (bits T : ℕ) (s : Bool) :
    ∀ (ks vs : List Observer) (start j : ℕ) (kO vO : Observer),
      ks.get? j = some kO → vs.get? j = some vO →
      (writeArtifactsFrom bits T s start ks vs).get? j =
        some (savePath ((start + j) / T) ((start + j) % T),
          if s then
            finalizeSym bits (kO.buffer.map Stat.scalarVal) (vO.buffer.map Stat.scalarVal)
          else
            finalizeAsym bits (kO.buffer.map Stat.pairVal) (vO.buffer.map Stat.pairVal)) := by
  intro ks
  induction ks with
  | nil => intro vs start j kO vO hk hv; simp at hk
  | cons k ks ih =>
      intro vs start j kO vO hk hv
      cases vs with
      | nil => simp at hv
      | cons v vs =>
          cases j with
          | zero =>
              rw [List.get?_cons_zero] at hk hv
              injection hk with hk
              injection hv with hv
              subst hk
              subst hv
              simp [writeArtifactsFrom]
          | succ m =>
              rw [List.get?_cons_succ] at hk hv
              have h := ih vs (start + 1) m kO vO hk hv
              have harith : start + 1 + m = start + (m + 1) := by ring
              rw [harith] at h
              exact h

/-- C5: the finalization loop writes exactly one artifact per observer index
`i`, at path `layers.<i / num_tp>.past_kv_scale.<i % num_tp>.weight`, whose
payload is `[k_scale, v_scale]` in symmetric mode and
`[k_scale, k_zero_point, v_scale, v_zero_point]` in asymmetric mode — i.e.
2 resp. 4 little-endian float32 values, 8 resp. 16 bytes, no header. -/
theorem C5_artifact_per_index (bits T : ℕ) (s : Bool) (kObs vObs : List Observer)
    (hT : 0 < T) (hlen : kObs.length = vObs.length) :
    (writeArtifacts bits T s kObs vObs).length = kObs.length ∧
    ∀ i kO vO, kObs.get? i = some kO → vObs.get? i = some vO →
      (writeArtifacts bits T s kObs vObs).get? i =
        some (savePath (i / T) (i % T),
          if s then
            finalizeSym bits (kO.buffer.map Stat.scalarVal) (vO.buffer.map Stat.scalarVal)
          else
            finalizeAsym bits (kO.buffer.map Stat.pairVal) (vO.buffer.map Stat.pairVal)) ∧
      ((writeArtifacts bits T s kObs vObs).get? i).map (fun a => 4 * a.2.length) =
        some (if s then 8 else 16) := by
  constructor
  · rw [writeArtifacts, writeArtifactsFrom_length, hlen, Nat.min_self]
  · intro i kO vO hk hv
    have hget : (writeArtifacts bits T s kObs vObs).get? i =
        some (savePath (i / T) (i % T),
          if s then
            finalizeSym bits (kO.buffer.map Stat.scalarVal) (vO.buffer.map Stat.scalarVal)
          else
            finalizeAsym bits (kO.buffer.map Stat.pairVal) (vO.buffer.map Stat.pairVal)) := by
      rw [writeArtifacts]
      have h := writeArtifactsFrom_get bits T s kObs vObs 0 i kO vO hk hv
      rwa [Nat.zero_add] at h
    refine ⟨hget, ?_⟩
    rw [hget]
    cases s <;> simp [finalizeSym, finalizeAsym]

/-- A concrete enabled observer holding one symmetric observation. -/
def witObs : Observer :=
  { reducer := Reducer.absmax, enabled := true, buffer := [Stat.scalar 3] }

/-- Witness for C5: one observer pair, `num_tp = 1`, `bits = 8`, symmetric;
also checks the concrete path string for index 0. -/
theorem C5_artifact_per_index_witness :
    ((0 < 1) ∧ ([witObs] : List Observer).length = ([witObs] : List Observer).length ∧
      savePath 0 0 = "layers.0.past_kv_scale.0.weight") ∧
    ((writeArtifacts 8 1 true [witObs] [witObs]).length = ([witObs] : List Observer).length ∧
      ∀ i kO vO, ([witObs] : List Observer).get? i = some kO →
        ([witObs] : List Observer).get? i = some vO →
        (writeArtifacts 8 1 true [witObs] [witObs]).get? i =
          some (savePath (i / 1) (i % 1),
            if true then
              finalizeSym 8 (kO.buffer.map Stat.scalarVal) (vO.buffer.map Stat.scalarVal)
            else
              finalizeAsym 8 (kO.buffer.map Stat.pairVal) (vO.buffer.map Stat.pairVal)) ∧
        ((writeArtifacts 8 1 true [witObs] [witObs]).get? i).map (fun a => 4 * a.2.length) =
          some (if true then 8 else 16)) :=
  ⟨⟨by decide, rfl, by decide⟩, C5_artifact_per_index 8 1 true [witObs] [witObs] (by decide) rfl⟩

/- ----------------------------------------------------------------
The `main` entry point (lines 95-199) as a phase trace: claims C9, C10.
---------------------------------------------------------------- -/

/-- The CLI configuration surface of `main` (lines 95-104). -/
structure Config where
  model : String
  bits : ℕ
  granularity : String
  symmetry : Bool
  offload : Bool
  max_seq_len : ℕ
  num_tp : ℕ
  calib_dataset : String
  calib_samples : ℕ
  output_dir : String

/-- The supported calibration datasets (line 109). -/
def calibDatasets : List String := ["c4", "ptb", "wikitext2", "pileval"]

/-- The conjunction of the three eager configuration asserts of lines
105-110. -/
def validConfig (c : Config) : Bool :=
  (c.granularity == "per_tensor") && (c.bits == 8) &&
    calibDatasets.contains c.calib_dataset

/-- The phases of a `main` run that can start. -/
inductive MainEvent
  | loadTokenizer
  | loadModel
  | loadCalibData
  | calibrate
  | writeKVFiles
deriving DecidableEq, Repr

/-- The failures `main` can die with: the three eager configuration asserts,
plus the two Python faults of the offload branch. -/
inductive RunError
  | configGranularity
  | configBits
  | configDataset
  | keyError
  | nameError
deriving DecidableEq, Repr

def RunError.isConfig : RunError → Bool
  | RunError.configGranularity => true
  | RunError.configBits => true
  | RunError.configDataset => true
  | RunError.keyError => false
  | RunError.nameError => false

/-- `OFFLOAD_MOD_MAP` (line 24), keyed by model class name. -/
def OFFLOAD_MOD_MAP : List (String × List String) :=
  [("LlamaForCausalLM", ["LlamaDecoderLayer"])]

/-- Python `key in dict`. -/
def dictContains (d : List (String × List String)) (key : String) : Bool :=
  (d.lookup key).isSome

/-- Python `dict[key]`: `KeyError` when the key is absent. -/
def dictGetItem (d : List (String × List String)) (key : String) :
    Except RunError (List String) :=
  match d.lookup key with
  | some mods => Except.ok mods
  | none => Except.error RunError.keyError

/-- The offload branch of `main` (lines 125-138) up to entering the inference
loop.  The assignment `offload_mod = OFFLOAD_MOD_MAP[type(model)]` (line 137)
sits inside the `if type(model) not in OFFLOAD_MOD_MAP` block (line 131), so
when the model type is absent the lookup itself raises `KeyError`, and when
it is present `offload_mod` is never assigned and its use at line 138 raises
`NameError`. -/
def offloadSetup (modelType : String) : Except RunError (List String) :=
  if dictContains OFFLOAD_MOD_MAP modelType = false then
    dictGetItem OFFLOAD_MOD_MAP modelType
  else
    Except.error RunError.nameError

/-- `main` as a straight-line phase trace: the list of phases that start, and
the error aborting the run (if any).  The configuration asserts (105-110) run
before the tokenizer (112), model (113) and calibration data (117) are
loaded; with `offload` set the run dies in `offloadSetup` before any batch is
processed; otherwise the calibration loop (147-158) and the artifact writes
(160-194) run. -/
def mainRun (c : Config) (modelType : String) : List MainEvent × Option RunError :=
  if (c.granularity == "per_tensor") = false then
    ([], some RunError.configGranularity)
  else if (c.bits == 8) = false then
    ([], some RunError.configBits)
  else if calibDatasets.contains c.calib_dataset = false then
    ([], some RunError.configDataset)
  else
    let pre := [MainEvent.loadTokenizer, MainEvent.loadModel, MainEvent.loadCalibData]
    if c.offload then
      match offloadSetup modelType with
      | Except.error e => (pre, some e)
      | Except.ok _ => (pre ++ [MainEvent.calibrate, MainEvent.writeKVFiles], none)
    else
      (pre ++ [MainEvent.calibrate, MainEvent.writeKVFiles], none)

lemma offloadSetup_fails (modelType : String) :
    offloadSetup modelType =
      Except.error (if dictContains OFFLOAD_MOD_MAP modelType then RunError.nameError
        else RunError.keyError) := by
  rw [offloadSetup]
  cases hc : dictContains OFFLOAD_MOD_MAP modelType
  · have hnone : OFFLOAD_MOD_MAP.lookup modelType = none := by
      rw [dictContains] at hc
      cases hl : OFFLOAD_MOD_MAP.lookup modelType
      · rfl
      · rw [hl] at hc; simp at hc
    rw [if_pos rfl, dictGetItem, hnone]
    simp
  · rw [if_neg (by simp)]
    simp

lemma mainRun_offload (c : Config) (modelType : String)
    (h1 : (c.granularity == "per_tensor") = true) (h2 : (c.bits == 8) = true)
    (h3 : calibDatasets.contains c.calib_dataset = true) (hoff : c.offload = true) :
    mainRun c modelType =
      ([MainEvent.loadTokenizer, MainEvent.loadModel, MainEvent.loadCalibData],
        some (if dictContains OFFLOAD_MOD_MAP modelType then RunError.nameError
          else RunError.keyError)) := by
  rw [mainRun, if_neg (by simp [h1]), if_neg (by simp [h2]), if_neg (by rw [h3]; simp), hoff,
    if_pos rfl, offloadSetup_fails]

/-- C9: configuration validation is eager and exhaustive — with an invalid
`bits` / `granularity` / `calib_dataset` the run stops with a configuration
error and an empty phase trace (so before any model loading, batch
processing, or file output), while with a valid configuration all three
checks pass, the run proceeds into loading, and any error it can still die
with is not a configuration error. -/
theorem C9_eager_config_validation (c : Config) (modelType : String) :
    if validConfig c then
      (mainRun c modelType).1.head? = some MainEvent.loadTokenizer ∧
      (∀ e, (mainRun c modelType).2 = some e → RunError.isConfig e = false)
    else
      (mainRun c modelType).1 = [] ∧
      ∃ e, (mainRun c modelType).2 = some e ∧ RunError.isConfig e = true := by
  cases h1 : (c.granularity == "per_tensor") with
  | false =>
      have hv : validConfig c = false := by rw [validConfig, h1]; rfl
      rw [if_neg (by simp [hv]), mainRun, if_pos h1]
      exact ⟨rfl, RunError.configGranularity, rfl, rfl⟩
  | true =>
      cases h2 : (c.bits == 8) with
      | false =>
          have hv : validConfig c = false := by rw [validConfig, h1, h2]; rfl
          rw [if_neg (by simp [hv]), mainRun, if_neg (by simp [h1]), if_pos h2]
          exact ⟨rfl, RunError.configBits, rfl, rfl⟩
      | true =>
          cases h3 : calibDatasets.contains c.calib_dataset with
          | false =>
              have hv : validConfig c = false := by rw [validConfig, h1, h2, h3]; rfl
              rw [if_neg (by simp [hv]), mainRun, if_neg (by simp [h1]),
                if_neg (by simp [h2]), if_pos h3]
              exact ⟨rfl, RunError.configDataset, rfl, rfl⟩
          | true =>
              have hv : validConfig c = true := by rw [validConfig, h1, h2, h3]; rfl
              rw [if_pos hv]
              cases hoff : c.offload with
              | false =>
                  rw [mainRun, if_neg (by simp [h1]), if_neg (by simp [h2]),
                    if_neg (by rw [h3]; simp), hoff]
                  exact ⟨rfl, by intro e he; simp at he⟩
              | true =>
                  rw [mainRun_offload c modelType h1 h2 h3 hoff]
                  refine ⟨rfl, ?_⟩
                  intro e he
                  injection he with he
                  rw [← he]
                  cases hdc : dictContains OFFLOAD_MOD_MAP modelType <;> rfl

/-- C10: with `offload = True` and a valid configuration the run always fails
after loading but before processing any calibration batch: a model type
absent from `OFFLOAD_MOD_MAP` dies looking that type up in the map anyway
(`KeyError`), a present one dies using the never-assigned `offload_mod`
(`NameError`); in neither case does the calibration phase or an artifact
write start. -/
theorem C10_offload_always_fails (c : Config) (modelType : String)
    (hoff : c.offload = true) (hvalid : validConfig c = true) :
    MainEvent.calibrate ∉ (mainRun c modelType).1 ∧
    MainEvent.writeKVFiles ∉ (mainRun c modelType).1 ∧
    (mainRun c modelType).2 =
      some (if dictContains OFFLOAD_MOD_MAP modelType then RunError.nameError
        else RunError.keyError) ∧
    offloadSetup modelType =
      Except.error (if dictContains OFFLOAD_MOD_MAP modelType then RunError.nameError
        else RunError.keyError) := by
  rw [validConfig, Bool.and_eq_true, Bool.and_eq_true] at hvalid
  obtain ⟨⟨h1, h2⟩, h3⟩ := hvalid
  rw [mainRun_offload c modelType h1 h2 h3 hoff]
  exact ⟨by simp, by simp, rfl, offloadSetup_fails modelType⟩

/-- A valid configuration with `offload = True` for the C10 witness. -/
def witConfig : Config :=
  { model := "m", bits := 8, granularity := "per_tensor", symmetry := true,
    offload := true, max_seq_len := 2048, num_tp := 1, calib_dataset := "c4",
    calib_samples := 128, output_dir := "./kv_scales" }

/-- A model type that is not a key of `OFFLOAD_MOD_MAP`. -/
def witModelType : String := "InternLMForCausalLM"

/-- Witness for C10 at a concrete valid offload configuration. -/
theorem C10_offload_always_fails_witness :
    (witConfig.offload = true ∧ validConfig witConfig = true) ∧
    (MainEvent.calibrate ∉ (mainRun witConfig witModelType).1 ∧
      MainEvent.writeKVFiles ∉ (mainRun witConfig witModelType).1 ∧
      (mainRun witConfig witModelType).2 =
        some (if dictContains OFFLOAD_MOD_MAP witModelType then RunError.nameError
          else RunError.keyError) ∧
      offloadSetup witModelType =
        Except.error (if dictContains OFFLOAD_MOD_MAP witModelType then RunError.nameError
          else RunError.keyError)) :=
  ⟨⟨rfl, by decide⟩, C10_offload_always_fails witConfig witModelType rfl (by decide)⟩
